import Mathlib

/-!
Verification of the SkinningDemo skeletal-skinning renderer
(src/SkinningDemo/main.cpp, skeletal_mesh.h, skeletal_mesh.cpp).

The embedding works over exact rational arithmetic: GLSL/GLM float vectors
and matrices become structures of rationals, and the external cos/sin
collaborator (used by glm::rotate, which receives the rotation angle in
degrees) is abstracted as a function `TrigFn` supplying the cosine/sine
pair for a given angle.  Matrices follow the mathematical row/column
convention; a GLM column-major entry m[c][r] corresponds to field m(r)(c)
here.
-/

namespace SkinningDemo

/-- A GLSL/GLM vec4 over exact rationals. -/
structure Vec4 where
  x : ℚ
  y : ℚ
  z : ℚ
  w : ℚ
deriving DecidableEq

/-- A GLSL/GLM mat4 over exact rationals, row-major: mRC is row R, column C. -/
structure Mat4 where
  m00 : ℚ
  m01 : ℚ
  m02 : ℚ
  m03 : ℚ
  m10 : ℚ
  m11 : ℚ
  m12 : ℚ
  m13 : ℚ
  m20 : ℚ
  m21 : ℚ
  m22 : ℚ
  m23 : ℚ
  m30 : ℚ
  m31 : ℚ
  m32 : ℚ
  m33 : ℚ
deriving DecidableEq

/-- Componentwise vec4 addition (GLSL +). -/
def addV (a b : Vec4) : Vec4 :=
  ⟨a.x + b.x, a.y + b.y, a.z + b.z, a.w + b.w⟩

instance : Add Vec4 := ⟨addV⟩

/-- Scalar times vec4 (GLSL scalar * vec4). -/
def smulV (k : ℚ) (v : Vec4) : Vec4 :=
  ⟨k * v.x, k * v.y, k * v.z, k * v.w⟩

/-- The zero vec4, as written in the shader: vec4(0,0,0,0). -/
def zeroV : Vec4 := ⟨0, 0, 0, 0⟩

/-- Matrix-matrix product (GLSL mat4 * mat4). -/
def matMul (a b : Mat4) : Mat4 :=
  ⟨a.m00 * b.m00 + a.m01 * b.m10 + a.m02 * b.m20 + a.m03 * b.m30,
   a.m00 * b.m01 + a.m01 * b.m11 + a.m02 * b.m21 + a.m03 * b.m31,
   a.m00 * b.m02 + a.m01 * b.m12 + a.m02 * b.m22 + a.m03 * b.m32,
   a.m00 * b.m03 + a.m01 * b.m13 + a.m02 * b.m23 + a.m03 * b.m33,
   a.m10 * b.m00 + a.m11 * b.m10 + a.m12 * b.m20 + a.m13 * b.m30,
   a.m10 * b.m01 + a.m11 * b.m11 + a.m12 * b.m21 + a.m13 * b.m31,
   a.m10 * b.m02 + a.m11 * b.m12 + a.m12 * b.m22 + a.m13 * b.m32,
   a.m10 * b.m03 + a.m11 * b.m13 + a.m12 * b.m23 + a.m13 * b.m33,
   a.m20 * b.m00 + a.m21 * b.m10 + a.m22 * b.m20 + a.m23 * b.m30,
   a.m20 * b.m01 + a.m21 * b.m11 + a.m22 * b.m21 + a.m23 * b.m31,
   a.m20 * b.m02 + a.m21 * b.m12 + a.m22 * b.m22 + a.m23 * b.m32,
   a.m20 * b.m03 + a.m21 * b.m13 + a.m22 * b.m23 + a.m23 * b.m33,
   a.m30 * b.m00 + a.m31 * b.m10 + a.m32 * b.m20 + a.m33 * b.m30,
   a.m30 * b.m01 + a.m31 * b.m11 + a.m32 * b.m21 + a.m33 * b.m31,
   a.m30 * b.m02 + a.m31 * b.m12 + a.m32 * b.m22 + a.m33 * b.m32,
   a.m30 * b.m03 + a.m31 * b.m13 + a.m32 * b.m23 + a.m33 * b.m33⟩

instance : Mul Mat4 := ⟨matMul⟩

/-- The identity mat4 (glm mat4 default constructor). -/
def idM : Mat4 := ⟨1, 0, 0, 0, 0, 1, 0, 0, 0, 0, 1, 0, 0, 0, 0, 1⟩

instance : One Mat4 := ⟨idM⟩

/-- Matrix-vector product (GLSL mat4 * vec4, column vector convention). -/
def mulVec (a : Mat4) (v : Vec4) : Vec4 :=
  ⟨a.m00 * v.x + a.m01 * v.y + a.m02 * v.z + a.m03 * v.w,
   a.m10 * v.x + a.m11 * v.y + a.m12 * v.z + a.m13 * v.w,
   a.m20 * v.x + a.m21 * v.y + a.m22 * v.z + a.m23 * v.w,
   a.m30 * v.x + a.m31 * v.y + a.m32 * v.z + a.m33 * v.w⟩

/-- Scalar times mat4 (GLSL mat4 * scalar, componentwise). -/
def smulM (k : ℚ) (a : Mat4) : Mat4 :=
  ⟨k * a.m00, k * a.m01, k * a.m02, k * a.m03,
   k * a.m10, k * a.m11, k * a.m12, k * a.m13,
   k * a.m20, k * a.m21, k * a.m22, k * a.m23,
   k * a.m30, k * a.m31, k * a.m32, k * a.m33⟩

/-- Diagonal matrix diag(k,k,k,k); diagM d is the adjugate identity target. -/
def diagM (k : ℚ) : Mat4 :=
  ⟨k, 0, 0, 0, 0, k, 0, 0, 0, 0, k, 0, 0, 0, 0, k⟩

/-- The external trigonometry collaborator: for a rotation angle given in
degrees, supplies the exact (cosine, sine) pair that glm::rotate uses to
build the rotation matrix. -/
def TrigFn : Type := ℚ → ℚ × ℚ

/-- glm::translate(identity, vec3(t, 0)): translation matrix for a 2D offset. -/
def translateM (t : ℚ × ℚ) : Mat4 :=
  ⟨1, 0, 0, t.1,
   0, 1, 0, t.2,
   0, 0, 1, 0,
   0, 0, 0, 1⟩

/-- The rotation matrix glm::rotate builds for axis (0,0,1) from the
(cosine, sine) pair of the angle. -/
def rotateZM (cs : ℚ × ℚ) : Mat4 :=
  ⟨cs.1, -cs.2, 0, 0,
   cs.2, cs.1, 0, 0,
   0, 0, 1, 0,
   0, 0, 0, 1⟩

/-- The scale matrix glm::scale builds for vec3(s, s, s). -/
def scaleM (s : ℚ) : Mat4 :=
  ⟨s, 0, 0, 0,
   0, s, 0, 0,
   0, 0, s, 0,
   0, 0, 0, 1⟩

/-- One joint of one pose (struct JointPose in main.cpp).  The C++ `parent`
is a raw pointer to another JointPose; here it is the abstract address of
that joint in the demo's pose storage (see `jointAt`), or none for a root. -/
structure JointPose where
  parent : Option ℤ
  color : Vec4
  translation : ℚ × ℚ
  rotation : ℚ
  scale : ℚ
deriving DecidableEq

/-- A skeleton pose: the fixed array of 7 joints (struct Pose in main.cpp). -/
abbrev PoseJoints : Type := Fin 7 → JointPose

/-- The demo's pose storage: the static table poses[N_POSES] (N_POSES = 3)
plus the separate global current_pose instance. -/
structure DemoState where
  poses : Fin 3 → PoseJoints
  current : PoseJoints

/-- Address layout of the pose globals, one unit per JointPose:
poses[p].joints[j] lives at address 7*p + j (0..20) and
current_pose.joints[j] lives at address 21 + j (21..27). -/
def jointAt (s : DemoState) (a : ℤ) : Option JointPose :=
  if h1 : 0 ≤ a ∧ a < 21 then
    some (s.poses ⟨a.toNat / 7, by omega⟩ ⟨a.toNat % 7, by omega⟩)
  else if h2 : 21 ≤ a ∧ a < 28 then
    some (s.current ⟨a.toNat - 21, by omega⟩)
  else
    none

/-- The global left_pose selector (main.cpp: size_t left_pose = 2). -/
def left_pose : Fin 3 := 2

/-- The global right_pose selector (main.cpp: size_t right_pose = 1). -/
def right_pose : Fin 3 := 1

/-- getJointLocalTransform (main.cpp): starts from the identity, applies
the translation, then multiplies the rotation matrix only when
rotation != 0.0f, then multiplies the scale matrix only when scale != 1.0f. -/
def getJointLocalTransform (trig : TrigFn) (jp : JointPose) : Mat4 :=
  let t0 : Mat4 := translateM jp.translation
  let t1 : Mat4 := if jp.rotation ≠ 0 then t0 * rotateZM (trig jp.rotation) else t0
  if jp.scale ≠ 1 then t1 * scaleM jp.scale else t1

/-- Modelled from the spec: the unoptimized local transform that always
multiplies translation, rotation and scale matrices (T·R·S), with no
short-circuiting; the reference point for the C3 refinement claim. -/
def getJointLocalTransformFull (trig : TrigFn) (jp : JointPose) : Mat4 :=
  translateM jp.translation * rotateZM (trig jp.rotation) * scaleM jp.scale

/-- Fuel-indexed version of getJointTransform (main.cpp): follows the parent
pointer chain through the pose storage; the C++ recursion has no base-case
guard other than parent == nullptr, so a cyclic or dangling chain exhausts
the fuel and yields none. -/
def getJointTransformF (trig : TrigFn) (s : DemoState) : ℕ → JointPose → Option Mat4
  | 0, _ => none
  | fuel + 1, jp =>
    match jp.parent with
    | none => some (getJointLocalTransform trig jp)
    | some a =>
      match jointAt s a with
      | none => none
      | some p =>
        (getJointTransformF trig s fuel p).map (fun m => m * getJointLocalTransform trig jp)

/-- getJointTransform (main.cpp): the local-to-model transform.  A chain of
parent links in this demo visits at most the 7 joints of one pose, so fuel 7
suffices for every acyclic hierarchy (proved in the C2 theorem). -/
def getJointTransform (trig : TrigFn) (s : DemoState) (jp : JointPose) : Option Mat4 :=
  getJointTransformF trig s 7 jp

/-- getJointTransform with the unreachable fuel-exhaustion case defaulted to
the identity (the C++ simply does not terminate there). -/
def getJointTransformD (trig : TrigFn) (s : DemoState) (jp : JointPose) : Mat4 :=
  (getJointTransform trig s jp).getD 1

/-- Length of the parent chain above a joint: 0 for a root, n+1 when the
parent address resolves to a joint whose own chain has length n. -/
inductive ParentDepth (s : DemoState) : JointPose → ℕ → Prop where
  | root (jp : JointPose) : jp.parent = none → ParentDepth s jp 0
  | step (jp : JointPose) (a : ℤ) (p : JointPose) (n : ℕ) :
      jp.parent = some a → jointAt s a = some p → ParentDepth s p n →
      ParentDepth s jp (n + 1)

/-- The cofactor matrix that glm::inverse builds before dividing by the
determinant (the Inverse value of glm compute_inverse for mat4, with the
SignA/SignB alternation applied; glm column-major m[c][r] is field mRC). -/
def glmRawInverse (m : Mat4) : Mat4 :=
  let coef00 : ℚ := m.m22 * m.m33 - m.m23 * m.m32
  let coef02 : ℚ := m.m21 * m.m33 - m.m23 * m.m31
  let coef03 : ℚ := m.m21 * m.m32 - m.m22 * m.m31
  let coef04 : ℚ := m.m12 * m.m33 - m.m13 * m.m32
  let coef06 : ℚ := m.m11 * m.m33 - m.m13 * m.m31
  let coef07 : ℚ := m.m11 * m.m32 - m.m12 * m.m31
  let coef08 : ℚ := m.m12 * m.m23 - m.m13 * m.m22
  let coef10 : ℚ := m.m11 * m.m23 - m.m13 * m.m21
  let coef11 : ℚ := m.m11 * m.m22 - m.m12 * m.m21
  let coef12 : ℚ := m.m02 * m.m33 - m.m03 * m.m32
  let coef14 : ℚ := m.m01 * m.m33 - m.m03 * m.m31
  let coef15 : ℚ := m.m01 * m.m32 - m.m02 * m.m31
  let coef16 : ℚ := m.m02 * m.m23 - m.m03 * m.m22
  let coef18 : ℚ := m.m01 * m.m23 - m.m03 * m.m21
  let coef19 : ℚ := m.m01 * m.m22 - m.m02 * m.m21
  let coef20 : ℚ := m.m02 * m.m13 - m.m03 * m.m12
  let coef22 : ℚ := m.m01 * m.m13 - m.m03 * m.m11
  let coef23 : ℚ := m.m01 * m.m12 - m.m02 * m.m11
  let inv0x : ℚ := m.m11 * coef00 - m.m21 * coef04 + m.m31 * coef08
  let inv0y : ℚ := m.m10 * coef00 - m.m20 * coef04 + m.m30 * coef08
  let inv0z : ℚ := m.m10 * coef02 - m.m20 * coef06 + m.m30 * coef10
  let inv0w : ℚ := m.m10 * coef03 - m.m20 * coef07 + m.m30 * coef11
  let inv1x : ℚ := m.m01 * coef00 - m.m21 * coef12 + m.m31 * coef16
  let inv1y : ℚ := m.m00 * coef00 - m.m20 * coef12 + m.m30 * coef16
  let inv1z : ℚ := m.m00 * coef02 - m.m20 * coef14 + m.m30 * coef18
  let inv1w : ℚ := m.m00 * coef03 - m.m20 * coef15 + m.m30 * coef19
  let inv2x : ℚ := m.m01 * coef04 - m.m11 * coef12 + m.m31 * coef20
  let inv2y : ℚ := m.m00 * coef04 - m.m10 * coef12 + m.m30 * coef20
  let inv2z : ℚ := m.m00 * coef06 - m.m10 * coef14 + m.m30 * coef22
  let inv2w : ℚ := m.m00 * coef07 - m.m10 * coef15 + m.m30 * coef23
  let inv3x : ℚ := m.m01 * coef08 - m.m11 * coef16 + m.m21 * coef20
  let inv3y : ℚ := m.m00 * coef08 - m.m10 * coef16 + m.m20 * coef20
  let inv3z : ℚ := m.m00 * coef10 - m.m10 * coef18 + m.m20 * coef22
  let inv3w : ℚ := m.m00 * coef11 - m.m10 * coef19 + m.m20 * coef23
  ⟨inv0x, -inv1x, inv2x, -inv3x,
   -inv0y, inv1y, -inv2y, inv3y,
   inv0z, -inv1z, inv2z, -inv3z,
   -inv0w, inv1w, -inv2w, inv3w⟩

/-- The determinant glm::inverse computes (Dot1 = dot of column 0 of m with
row 0 of the cofactor matrix). -/
def glmDet (m : Mat4) : ℚ :=
  m.m00 * (glmRawInverse m).m00 + m.m10 * (glmRawInverse m).m01 +
    m.m20 * (glmRawInverse m).m02 + m.m30 * (glmRawInverse m).m03

/-- glm::inverse: cofactor matrix times 1/determinant.  No singularity check
is performed; in this exact-arithmetic embedding 1/0 = 0 stands in for the
non-finite values float division by zero produces. -/
def glmInverse (m : Mat4) : Mat4 :=
  smulM (1 / glmDet m) (glmRawInverse m)

/-- The bind-pose inverse table built in initGL (main.cpp): for each of the
7 joints, glm::inverse of the joint's bind-pose (poses[0]) model transform.
Straight-line code with no failure path. -/
def initBindInverses (trig : TrigFn) (s : DemoState) (i : Fin 7) : Mat4 :=
  glmInverse (getJointTransformD trig s (s.poses 0 i))

/-- Vec4 times scalar, as written in mouseMove: color * g. -/
def mulVS (v : Vec4) (k : ℚ) : Vec4 :=
  ⟨v.x * k, v.y * k, v.z * k, v.w * k⟩

/-- Vec2 times scalar, as written in mouseMove: translation * g. -/
def mulV2 (t : ℚ × ℚ) (k : ℚ) : ℚ × ℚ :=
  (t.1 * k, t.2 * k)

/-- initPoses (main.cpp), poses[0].joints[0]: the bind-pose root joint. -/
def pose0_joint0 : JointPose :=
  { parent := none, color := ⟨1, 1, 1, 1⟩, translation := (0, 0), rotation := 0, scale := 1 }

/-- poses[0].joints[1] = poses[0].joints[0] followed by field overrides;
its parent pointer is the address of poses[0].joints[0], i.e. 0. -/
def pose0_joint1 : JointPose :=
  { pose0_joint0 with
    color := ⟨1, 0, 0, 1⟩
    parent := some 0
    translation := (0, 0.206357)
    rotation := 90 }

/-- poses[0].joints[2]. -/
def pose0_joint2 : JointPose :=
  { pose0_joint0 with
    color := ⟨0, 1, 0, 1⟩
    parent := some 0
    translation := (-0.178710, -0.103178)
    rotation := 210 }

/-- poses[0].joints[3]. -/
def pose0_joint3 : JointPose :=
  { pose0_joint0 with
    color := ⟨0, 0, 1, 1⟩
    parent := some 0
    translation := (0.178710, -0.103178)
    rotation := -30 }

/-- poses[0].joints[4] = poses[0].joints[1] followed by overrides; parent is
the address of poses[0].joints[1], i.e. 1. -/
def pose0_joint4 : JointPose :=
  { pose0_joint1 with
    color := ⟨1, 1, 0, 1⟩
    parent := some 1
    translation := (0.475503, 0)
    rotation := 0 }

/-- poses[0].joints[5] = poses[0].joints[4] with color and parent changed. -/
def pose0_joint5 : JointPose :=
  { pose0_joint4 with color := ⟨0, 1, 1, 1⟩, parent := some 2 }

/-- poses[0].joints[6] = poses[0].joints[4] with color and parent changed. -/
def pose0_joint6 : JointPose :=
  { pose0_joint4 with color := ⟨1, 0, 1, 1⟩, parent := some 3 }

/-- poses[0], the bind pose. -/
def pose0 : PoseJoints :=
  ![pose0_joint0, pose0_joint1, pose0_joint2, pose0_joint3,
    pose0_joint4, pose0_joint5, pose0_joint6]

/-- poses[1] = poses[0] (struct copy) followed by reassigning each non-root
parent pointer into poses[1] (addresses 7..13) and new rotations. -/
def pose1 : PoseJoints :=
  ![pose0 0,
    { pose0 1 with parent := some 7, rotation := 45 },
    { pose0 2 with parent := some 7, rotation := 165 },
    { pose0 3 with parent := some 7, rotation := -75 },
    { pose0 4 with parent := some 8, rotation := -45 },
    { pose0 5 with parent := some 9, rotation := -45 },
    { pose0 6 with parent := some 10, rotation := -45 }]

/-- poses[2] = poses[0] (struct copy) followed by reassigning each non-root
parent pointer into poses[2] (addresses 14..20) and new rotations. -/
def pose2 : PoseJoints :=
  ![pose0 0,
    { pose0 1 with parent := some 14, rotation := 135 },
    { pose0 2 with parent := some 14, rotation := 255 },
    { pose0 3 with parent := some 14, rotation := 15 },
    { pose0 4 with parent := some 15, rotation := 45 },
    { pose0 5 with parent := some 16, rotation := 45 },
    { pose0 6 with parent := some 17, rotation := 45 }]

/-- The pose storage right after initPoses returns: the three named poses,
and current_pose = poses[0] -- a verbatim struct copy, so the parent
pointers inside current_pose still hold the addresses 0..6 of the joints of
poses[0] itself. -/
def initState : DemoState :=
  { poses := ![pose0, pose1, pose2], current := pose0 }

/-- A hypothetical startup configuration (not the shipped data) whose
bind-pose root joint has scale 0, making its model transform singular; used
to probe the singular-bind-pose behavior of initGL. -/
def singularPose0 : PoseJoints :=
  ![{ pose0_joint0 with scale := 0 }, pose0_joint1, pose0_joint2, pose0_joint3,
    pose0_joint4, pose0_joint5, pose0_joint6]

/-- The pose storage after an initPoses variant that authored
singularPose0 as the bind pose. -/
def singularState : DemoState :=
  { poses := ![singularPose0, pose1, pose2], current := singularPose0 }

/-- float(x) / viewport.x as computed at the top of mouseMove (main.cpp).
There is no clamping. -/
def normF (x vx : ℤ) : ℚ := (x : ℚ) / (vx : ℚ)

/-- mouseMove (main.cpp): copies poses[left_pose] into current_pose, rebases
every non-null parent pointer by the byte offset from &poses[left_pose] to
&current_pose, and overwrites color, rotation, scale and translation of each
joint with poses[left_pose] * g + poses[right_pose] * f, where
f = float(x) / viewport.x and g = 1 - f.  Only current_pose is written. -/
def mouseMove (s : DemoState) (x vx : ℤ) : DemoState :=
  let f : ℚ := normF x vx
  let g : ℚ := 1 - f
  { s with current := fun j =>
      let jp := s.poses left_pose j
      let rebased : Option ℤ :=
        match jp.parent with
        | none => none
        | some a => some (21 + (a - 7 * ((left_pose : ℕ) : ℤ)))
      { parent := rebased,
        color := mulVS (s.poses left_pose j).color g +
          mulVS (s.poses right_pose j).color f,
        rotation := (s.poses left_pose j).rotation * g +
          (s.poses right_pose j).rotation * f,
        scale := (s.poses left_pose j).scale * g +
          (s.poses right_pose j).scale * f,
        translation := mulV2 (s.poses left_pose j).translation g +
          mulV2 (s.poses right_pose j).translation f } }

/-- The vertex shader main function (vertex_shader_source in main.cpp):
starting from gl_Position = vec4(0,0,0,0) and color = vec4(0,0,0,0), adds
for each of the three joint slots
weight * (current_pose[index] * bind_pose_inv[index] * vertex_coords)
to gl_Position and weight * current_pose_colors[index] to color, where
vertex_coords = vec4(position, 0, 1).  Returns (gl_Position, color). -/
def vertexShaderMain (bind_pose_inv current_pose : Fin 7 → Mat4)
    (current_pose_colors : Fin 7 → Vec4) (position : ℚ × ℚ)
    (j0 j1 j2 : Fin 7) (w0 w1 w2 : ℚ) : Vec4 × Vec4 :=
  let vertex_coords : Vec4 := ⟨position.1, position.2, 0, 1⟩
  let glPosition : Vec4 := zeroV
  let color : Vec4 := zeroV
  let color := color + smulV w0 (current_pose_colors j0)
  let glPosition := glPosition +
    smulV w0 (mulVec (current_pose j0 * bind_pose_inv j0) vertex_coords)
  let color := color + smulV w1 (current_pose_colors j1)
  let glPosition := glPosition +
    smulV w1 (mulVec (current_pose j1 * bind_pose_inv j1) vertex_coords)
  let color := color + smulV w2 (current_pose_colors j2)
  let glPosition := glPosition +
    smulV w2 (mulVec (current_pose j2 * bind_pose_inv j2) vertex_coords)
  (glPosition, color)

/-- struct Vertex (skeletal_mesh.h): a 2D bind-pose position, 3 joint
indices and 3 joint weights. -/
structure Vertex where
  position : ℚ × ℚ
  joint_indices : Fin 3 → ℕ
  joint_weights : Fin 3 → ℚ
deriving DecidableEq

/-- The first vertex pushed by initMeshes (main.cpp): a default-constructed
Vertex whose fields the source never initializes, kept only so that the mesh
indices can start at 1.  Its field values here are placeholders for the
indeterminate source values; no triangle references it (claim C10). -/
def vertexUnused : Vertex :=
  { position := (0, 0), joint_indices := ![0, 0, 0], joint_weights := ![0, 0, 0] }

/-- The vertex sequence authored by initMeshes (main.cpp), in push order.
The local Vertex variable v persists between pushes, so slots not
re-assigned before a push keep their previous values (in particular the
third index/weight slot, which stays (0, 0.0) after vertex 3 and again after
vertices 17 and 30). -/
def meshVertices : List Vertex :=
  [vertexUnused,
   { position := (-0.057707, 0.033317), joint_indices := ![0, 1, 2], joint_weights := ![0.6, 0.1, 0.1] },
   { position := (0.057707, 0.033317), joint_indices := ![0, 1, 3], joint_weights := ![0.6, 0.1, 0.1] },
   { position := (-0.042311, 0.784992), joint_indices := ![1, 4, 0], joint_weights := ![0.2, 0.8, 0] },
   { position := (0.042311, 0.784992), joint_indices := ![1, 4, 0], joint_weights := ![0.2, 0.8, 0] },
   { position := (0, 0.935516), joint_indices := ![4, 1, 0], joint_weights := ![1, 0, 0] },
   { position := (-0.042311, 0.568087), joint_indices := ![1, 4, 0], joint_weights := ![0.8, 0.2, 0] },
   { position := (0.042311, 0.568087), joint_indices := ![1, 4, 0], joint_weights := ![0.8, 0.2, 0] },
   { position := (-0.042311, 0.451115), joint_indices := ![1, 0, 0], joint_weights := ![0.9, 0.1, 0] },
   { position := (0.042311, 0.451115), joint_indices := ![1, 0, 0], joint_weights := ![0.9, 0.1, 0] },
   { position := (-0.042311, 0.206357), joint_indices := ![0, 1, 0], joint_weights := ![0.4, 0.6, 0] },
   { position := (0.042311, 0.206357), joint_indices := ![0, 1, 0], joint_weights := ![0.4, 0.6, 0] },
   { position := (-0.042311, 0.328522), joint_indices := ![1, 0, 0], joint_weights := ![0.8, 0.2, 0] },
   { position := (0.042311, 0.328522), joint_indices := ![1, 0, 0], joint_weights := ![0.8, 0.2, 0] },
   { position := (-0.042311, 0.681860), joint_indices := ![1, 4, 0], joint_weights := ![0.6, 0.4, 0] },
   { position := (0.042311, 0.681860), joint_indices := ![1, 4, 0], joint_weights := ![0.6, 0.4, 0] },
   { position := (0, -0.066635), joint_indices := ![0, 2, 3], joint_weights := ![0.6, 0.1, 0.1] },
   { position := (0.700979, -0.355853), joint_indices := ![3, 6, 0], joint_weights := ![0.2, 0.8, 0] },
   { position := (0.658668, -0.429139), joint_indices := ![3, 6, 0], joint_weights := ![0.2, 0.8, 0] },
   { position := (0.810180, -0.467758), joint_indices := ![6, 0, 0], joint_weights := ![1, 0, 0] },
   { position := (0.513133, -0.247401), joint_indices := ![3, 6, 0], joint_weights := ![0.8, 0.2, 0] },
   { position := (0.470822, -0.320686), joint_indices := ![3, 6, 0], joint_weights := ![0.8, 0.2, 0] },
   { position := (0.411833, -0.188915), joint_indices := ![3, 0, 0], joint_weights := ![0.9, 0.1, 0] },
   { position := (0.369521, -0.262200), joint_indices := ![3, 0, 0], joint_weights := ![0.9, 0.1, 0] },
   { position := (0.199866, -0.066536), joint_indices := ![0, 3, 0], joint_weights := ![0.4, 0.6, 0] },
   { position := (0.157554, -0.139821), joint_indices := ![0, 3, 0], joint_weights := ![0.4, 0.6, 0] },
   { position := (0.305664, -0.127618), joint_indices := ![3, 0, 0], joint_weights := ![0.8, 0.2, 0] },
   { position := (0.263353, -0.200904), joint_indices := ![3, 0, 0], joint_weights := ![0.8, 0.2, 0] },
   { position := (0.611663, -0.304287), joint_indices := ![3, 6, 0], joint_weights := ![0.6, 0.4, 0] },
   { position := (0.569352, -0.377572), joint_indices := ![3, 6, 0], joint_weights := ![0.6, 0.4, 0] },
   { position := (-0.658668, -0.429139), joint_indices := ![2, 5, 0], joint_weights := ![0.2, 0.8, 0] },
   { position := (-0.700979, -0.355853), joint_indices := ![2, 5, 0], joint_weights := ![0.2, 0.8, 0] },
   { position := (-0.810180, -0.467758), joint_indices := ![5, 0, 0], joint_weights := ![1, 0, 0] },
   { position := (-0.470822, -0.320686), joint_indices := ![2, 5, 0], joint_weights := ![0.8, 0.2, 0] },
   { position := (-0.513133, -0.247401), joint_indices := ![2, 5, 0], joint_weights := ![0.8, 0.2, 0] },
   { position := (-0.369521, -0.262200), joint_indices := ![2, 0, 0], joint_weights := ![0.9, 0.1, 0] },
   { position := (-0.411833, -0.188915), joint_indices := ![2, 0, 0], joint_weights := ![0.9, 0.1, 0] },
   { position := (-0.157554, -0.139821), joint_indices := ![0, 2, 0], joint_weights := ![0.4, 0.6, 0] },
   { position := (-0.199866, -0.066536), joint_indices := ![0, 2, 0], joint_weights := ![0.4, 0.6, 0] },
   { position := (-0.263353, -0.200904), joint_indices := ![2, 0, 0], joint_weights := ![0.8, 0.2, 0] },
   { position := (-0.305664, -0.127618), joint_indices := ![2, 0, 0], joint_weights := ![0.8, 0.2, 0] },
   { position := (-0.569352, -0.377572), joint_indices := ![2, 5, 0], joint_weights := ![0.6, 0.4, 0] },
   { position := (-0.611663, -0.304287), joint_indices := ![2, 5, 0], joint_weights := ![0.6, 0.4, 0] }]

/-- The triangle index sequence authored by initMeshes (main.cpp), in push
order, three entries per triangle. -/
def meshIndices : List ℕ :=
  [1, 2, 10,  10, 2, 11,  3, 4, 5,  14, 15, 3,  3, 15, 4,
   2, 16, 24,  24, 16, 25,  17, 18, 19,  28, 29, 17,  17, 29, 18,
   16, 1, 37,  37, 1, 38,  30, 31, 32,  41, 42, 30,  30, 42, 31,
   2, 1, 16,  33, 34, 41,  41, 34, 42,  37, 38, 39,  39, 38, 40,
   33, 36, 34,  40, 35, 39,  36, 33, 35,  35, 40, 36,  10, 11, 12,
   12, 11, 13,  6, 7, 14,  14, 7, 15,  6, 9, 7,  8, 13, 9,
   13, 8, 12,  9, 6, 8,  24, 25, 26,  26, 25, 27,  20, 21, 28,
   28, 21, 29,  20, 23, 21,  22, 27, 23,  27, 22, 26,  23, 20, 22]

/-- Sum of a vertex's three joint weights. -/
def weightSum (v : Vertex) : ℚ :=
  v.joint_weights 0 + v.joint_weights 1 + v.joint_weights 2

/-- A sample instantiation of the trigonometry collaborator, used by the
concrete witnesses; its value at 0 degrees is the exact (cos 0, sin 0). -/
def trigSample : TrigFn := fun _ => (1, 0)

/-- The source poses read by the blend have all their parent pointers
inside poses[left_pose] itself (addresses 7*left_pose .. 7*left_pose+6). -/
def sourceParentsInRange (s : DemoState) : Prop :=
  ∀ j : Fin 7,
    match (s.poses left_pose j).parent with
    | none => True
    | some a => 7 * ((left_pose : ℕ) : ℤ) ≤ a ∧ a < 7 * ((left_pose : ℕ) : ℤ) + 7

instance optionBoundsDecidable (o : Option ℤ) (lo hi : ℤ) :
    Decidable (match o with | none => True | some a => lo ≤ a ∧ a < hi) :=
  match o with
  | none => isTrue trivial
  | some a => inferInstanceAs (Decidable (lo ≤ a ∧ a < hi))

instance sourceParentsInRangeDecidable (s : DemoState) :
    Decidable (sourceParentsInRange s) :=
  inferInstanceAs (Decidable (∀ j : Fin 7, _))

theorem mat_mul_def (a b : Mat4) : a * b = matMul a b := rfl

theorem mat_one_def : (1 : Mat4) = idM := rfl

theorem mat_mul_one (a : Mat4) : a * 1 = a := by
  obtain ⟨_, _, _, _, _, _, _, _, _, _, _, _, _, _, _, _⟩ := a
  show matMul _ idM = _
  simp only [matMul, idM, Mat4.mk.injEq]
  norm_num

theorem mat_one_mul (a : Mat4) : 1 * a = a := by
  obtain ⟨_, _, _, _, _, _, _, _, _, _, _, _, _, _, _, _⟩ := a
  show matMul idM _ = _
  simp only [matMul, idM, Mat4.mk.injEq]
  norm_num

theorem one_mulVec (v : Vec4) : mulVec 1 v = v := by
  obtain ⟨_, _, _, _⟩ := v
  show mulVec idM _ = _
  simp only [mulVec, idM, Vec4.mk.injEq]
  norm_num


theorem glmRawInverse_mul (m : Mat4) : glmRawInverse m * m = diagM (glmDet m) := by
  obtain ⟨_, _, _, _, _, _, _, _, _, _, _, _, _, _, _, _⟩ := m
  show matMul (glmRawInverse _) _ = _
  simp only [glmRawInverse, glmDet, matMul, diagM, Mat4.mk.injEq]
  refine ⟨by ring, by ring, by ring, by ring, by ring, by ring, by ring, by ring,
    by ring, by ring, by ring, by ring, by ring, by ring, by ring, by ring⟩

theorem mul_glmRawInverse (m : Mat4) : m * glmRawInverse m = diagM (glmDet m) := by
  obtain ⟨_, _, _, _, _, _, _, _, _, _, _, _, _, _, _, _⟩ := m
  show matMul _ (glmRawInverse _) = _
  simp only [glmRawInverse, glmDet, matMul, diagM, Mat4.mk.injEq]
  refine ⟨by ring, by ring, by ring, by ring, by ring, by ring, by ring, by ring,
    by ring, by ring, by ring, by ring, by ring, by ring, by ring, by ring⟩

theorem smulM_mul (k : ℚ) (a b : Mat4) : smulM k a * b = smulM k (a * b) := by
  obtain ⟨_, _, _, _, _, _, _, _, _, _, _, _, _, _, _, _⟩ := a
  obtain ⟨_, _, _, _, _, _, _, _, _, _, _, _, _, _, _, _⟩ := b
  show matMul (smulM _ _) _ = smulM _ (matMul _ _)
  simp only [matMul, smulM, Mat4.mk.injEq]
  refine ⟨by ring, by ring, by ring, by ring, by ring, by ring, by ring, by ring,
    by ring, by ring, by ring, by ring, by ring, by ring, by ring, by ring⟩

theorem mul_smulM (k : ℚ) (a b : Mat4) : a * smulM k b = smulM k (a * b) := by
  obtain ⟨_, _, _, _, _, _, _, _, _, _, _, _, _, _, _, _⟩ := a
  obtain ⟨_, _, _, _, _, _, _, _, _, _, _, _, _, _, _, _⟩ := b
  show matMul _ (smulM _ _) = smulM _ (matMul _ _)
  simp only [matMul, smulM, Mat4.mk.injEq]
  refine ⟨by ring, by ring, by ring, by ring, by ring, by ring, by ring, by ring,
    by ring, by ring, by ring, by ring, by ring, by ring, by ring, by ring⟩

theorem smulM_diagM (k d : ℚ) : smulM k (diagM d) = diagM (k * d) := by
  simp only [smulM, diagM, Mat4.mk.injEq]
  norm_num

theorem glmInverse_mul (m : Mat4) (h : glmDet m ≠ 0) : glmInverse m * m = 1 := by
  rw [glmInverse, smulM_mul, glmRawInverse_mul, smulM_diagM,
    one_div, inv_mul_cancel₀ h]
  rfl

theorem mul_glmInverse (m : Mat4) (h : glmDet m ≠ 0) : m * glmInverse m = 1 := by
  rw [glmInverse, mul_smulM, mul_glmRawInverse, smulM_diagM,
    one_div, inv_mul_cancel₀ h]
  rfl


theorem getJointTransformF_succ_none (trig : TrigFn) (s : DemoState) (fuel : ℕ)
    (jp : JointPose) (h : jp.parent = none) :
    getJointTransformF trig s (fuel + 1) jp = some (getJointLocalTransform trig jp) := by
  simp [getJointTransformF, h]

theorem getJointTransformF_succ_some (trig : TrigFn) (s : DemoState) (fuel : ℕ)
    (jp p : JointPose) (a : ℤ) (h : jp.parent = some a) (h2 : jointAt s a = some p) :
    getJointTransformF trig s (fuel + 1) jp =
      (getJointTransformF trig s fuel p).map (fun m => m * getJointLocalTransform trig jp) := by
  simp [getJointTransformF, h, h2]

theorem getJointTransformF_depth (trig : TrigFn) (s : DemoState) {jp : JointPose} {n : ℕ}
    (hd : ParentDepth s jp n) :
    ∃ M, ∀ m, n < m → getJointTransformF trig s m jp = some M := by
  induction hd with
  | root jp h =>
    refine ⟨getJointLocalTransform trig jp, ?_⟩
    intro m hm
    match m, hm with
    | m + 1, _ => exact getJointTransformF_succ_none trig s m jp h
  | step jp a p n hpar hat _ ih =>
    obtain ⟨M, hM⟩ := ih
    refine ⟨M * getJointLocalTransform trig jp, ?_⟩
    intro m hm
    match m, hm with
    | m + 1, hm =>
      rw [getJointTransformF_succ_some trig s m jp p a hpar hat, hM m (by omega)]
      rfl

/-- C2: for every joint pose whose parent chain is finite with length below
the joint count 7, getJointTransform terminates (returns a value with the
fixed fuel 7), returning localTransform(jp) when the parent is null and
modelTransform(parent) * localTransform(jp) when the parent is set; the
result is a pure function of the pose data reachable from the joint (the
embedding is a pure function of the state and the joint). -/
theorem getJointTransform_spec (trig : TrigFn) (s : DemoState) (jp : JointPose) (n : ℕ)
    (hd : ParentDepth s jp n) (hn : n < 7) :
    (∃ M, getJointTransform trig s jp = some M) ∧
    (jp.parent = none →
      getJointTransform trig s jp = some (getJointLocalTransform trig jp)) ∧
    (∀ a : ℤ, jp.parent = some a → ∃ p Mp, jointAt s a = some p ∧
      getJointTransform trig s p = some Mp ∧
      getJointTransform trig s jp = some (Mp * getJointLocalTransform trig jp)) := by
  refine ⟨?_, ?_, ?_⟩
  · obtain ⟨M, hM⟩ := getJointTransformF_depth trig s hd
    exact ⟨M, hM 7 hn⟩
  · intro h
    exact getJointTransformF_succ_none trig s 6 jp h
  · intro a ha
    cases hd with
    | root _ h => rw [h] at ha; cases ha
    | step _ a2 p n2 hpar hat hd2 =>
      rw [hpar] at ha
      have haa : a2 = a := Option.some.inj ha
      subst haa
      obtain ⟨Mp, hMp⟩ := getJointTransformF_depth trig s hd2
      refine ⟨p, Mp, hat, hMp 7 (by omega), ?_⟩
      show getJointTransformF trig s (6 + 1) jp = _
      rw [getJointTransformF_succ_some trig s 6 jp p a2 hpar hat, hMp 6 (by omega)]
      rfl

/-- Witness for C2 at a concrete input: joint 1 of the authored bind pose
has parent chain length 1, and its model transform evaluates. -/
theorem getJointTransform_spec_witness :
    ∃ M, getJointTransform trigSample initState (initState.poses 0 1) = some M := by
  have hd : ParentDepth initState (initState.poses 0 1) 1 := by
    refine ParentDepth.step _ 0 (initState.poses 0 0) 0 (by decide) (by decide)
      (ParentDepth.root _ (by decide))
  exact (getJointTransform_spec trigSample initState (initState.poses 0 1) 1 hd
    (by omega)).1


theorem addV_def (a b : Vec4) : a + b = addV a b := rfl

theorem mulVS_one (v : Vec4) : mulVS v 1 = v := by
  cases v
  simp [mulVS]

theorem mulVS_zero (v : Vec4) : mulVS v 0 = zeroV := by
  cases v
  simp [mulVS, zeroV]

theorem addV_zeroV (v : Vec4) : v + zeroV = v := by
  cases v
  simp [addV_def, addV, zeroV]

theorem zeroV_addV (v : Vec4) : zeroV + v = v := by
  cases v
  simp [addV_def, addV, zeroV]

theorem mulV2_one (t : ℚ × ℚ) : mulV2 t 1 = t := by
  simp [mulV2]

theorem mulV2_zero (t : ℚ × ℚ) : mulV2 t 0 = (0, 0) := by
  simp [mulV2]

theorem addP_zero (t : ℚ × ℚ) : t + ((0 : ℚ), (0 : ℚ)) = t := by
  simp [Prod.ext_iff, Prod.fst_add, Prod.snd_add]

theorem zero_addP (t : ℚ × ℚ) : ((0 : ℚ), (0 : ℚ)) + t = t := by
  simp [Prod.ext_iff, Prod.fst_add, Prod.snd_add]

theorem rotateZM_cos0 : rotateZM (1, 0) = 1 := by decide

theorem scaleM_one : scaleM 1 = 1 := by decide

theorem translateM_zero : translateM (0, 0) = 1 := by decide

/-- C1: for a vertex whose three weights sum to 1, if each composed matrix
current_pose[i_k] * bind_pose_inv[i_k] is the identity, the gl_Position the
vertex shader accumulates (starting from vec4(0,0,0,0)) is exactly
vec4(position, 0, 1): the original bind-space position, unchanged. -/
theorem skinning_identity (bind_pose_inv current_pose : Fin 7 → Mat4)
    (current_pose_colors : Fin 7 → Vec4) (position : ℚ × ℚ)
    (j0 j1 j2 : Fin 7) (w0 w1 w2 : ℚ) (hw : w0 + w1 + w2 = 1)
    (h0 : current_pose j0 * bind_pose_inv j0 = 1)
    (h1 : current_pose j1 * bind_pose_inv j1 = 1)
    (h2 : current_pose j2 * bind_pose_inv j2 = 1) :
    (vertexShaderMain bind_pose_inv current_pose current_pose_colors position
      j0 j1 j2 w0 w1 w2).1 = ⟨position.1, position.2, 0, 1⟩ := by
  simp only [vertexShaderMain, h0, h1, h2, one_mulVec, addV_def, addV, smulV, zeroV,
    Vec4.mk.injEq]
  refine ⟨?_, ?_, ?_, ?_⟩
  · linear_combination position.1 * hw
  · linear_combination position.2 * hw
  · ring
  · linear_combination hw

/-- Witness for C1 at a concrete input: all composed transforms identity,
weights (1/2, 1/4, 1/4), position (3, 5). -/
theorem skinning_identity_witness :
    (vertexShaderMain (fun _ => 1) (fun _ => 1) (fun _ => zeroV) (3, 5) 0 1 2
      (1/2) (1/4) (1/4)).1 = ⟨3, 5, 0, 1⟩ :=
  skinning_identity (fun _ => 1) (fun _ => 1) (fun _ => zeroV) (3, 5) 0 1 2
    (1/2) (1/4) (1/4) (by norm_num) (mat_mul_one 1) (mat_mul_one 1) (mat_mul_one 1)

/-- C3: provided the trigonometry collaborator is exact at 0 degrees
(cos 0 = 1 and sin 0 = 0, which float cos/sin return exactly), the
short-circuited local transform of getJointLocalTransform is numerically
identical to the unoptimized T·R·S composition for every joint pose; in
particular a joint pose with zero translation, zero rotation, unit scale and
no parent has exactly the identity model transform. -/
theorem localTransform_shortcircuit_eq_full (trig : TrigFn) (h : trig 0 = (1, 0)) :
    (∀ jp : JointPose, getJointLocalTransform trig jp = getJointLocalTransformFull trig jp) ∧
    (∀ (s : DemoState) (jp : JointPose), jp.parent = none → jp.translation = (0, 0) →
      jp.rotation = 0 → jp.scale = 1 → getJointTransform trig s jp = some 1) := by
  constructor
  · intro jp
    by_cases hr : jp.rotation = 0 <;> by_cases hs : jp.scale = 1
    · simp [getJointLocalTransform, getJointLocalTransformFull, hr, hs, h,
        rotateZM_cos0, scaleM_one, mat_mul_one]
    · simp only [getJointLocalTransform, getJointLocalTransformFull, hr, hs, h,
        rotateZM_cos0, ne_eq, not_true_eq_false, if_false, if_true,
        not_false_eq_true, ite_not, mat_mul_one]
    · simp [getJointLocalTransform, getJointLocalTransformFull, hr, hs,
        scaleM_one, mat_mul_one]
    · simp [getJointLocalTransform, getJointLocalTransformFull, hr, hs]
  · intro s jp h1 h2 h3 h4
    rw [show getJointTransform trig s jp = getJointTransformF trig s (6 + 1) jp from rfl,
      getJointTransformF_succ_none trig s 6 jp h1]
    simp only [getJointLocalTransform, h2, h3, h4, ne_eq, not_true_eq_false,
      if_false, Option.some.injEq, ite_not, if_true]
    decide

/-- Witness for C3 at a concrete input: the authored bind-pose root joint
(zero translation, zero rotation, unit scale, no parent) has the identity
model transform, and its short-circuited local transform equals the full
composition; trigSample is exact at 0 degrees. -/
theorem localTransform_shortcircuit_witness :
    getJointLocalTransform trigSample pose0_joint0 =
      getJointLocalTransformFull trigSample pose0_joint0 ∧
    getJointTransform trigSample initState pose0_joint0 = some 1 :=
  ⟨(localTransform_shortcircuit_eq_full trigSample rfl).1 pose0_joint0,
   (localTransform_shortcircuit_eq_full trigSample rfl).2 initState pose0_joint0
     rfl rfl rfl rfl⟩

/-- C4: for any source poses A = poses[left_pose] and B = poses[right_pose]
of identical parent topology, the blend performed by mouseMove reproduces
every interpolated field (color, rotation, scale, translation) of every
joint of A exactly at t = 0 (pointer x = 0) and of B exactly at t = 1
(pointer x = viewport width). -/
theorem blend_endpoints (s : DemoState) (vx : ℤ) (hvx : vx ≠ 0)
    (htopo : ∀ j : Fin 7,
      Option.map (fun a => a - 7 * ((left_pose : ℕ) : ℤ)) ((s.poses left_pose j).parent) =
        Option.map (fun a => a - 7 * ((right_pose : ℕ) : ℤ)) ((s.poses right_pose j).parent)) :
    (∀ j : Fin 7,
      ((mouseMove s 0 vx).current j).color = (s.poses left_pose j).color ∧
      ((mouseMove s 0 vx).current j).rotation = (s.poses left_pose j).rotation ∧
      ((mouseMove s 0 vx).current j).scale = (s.poses left_pose j).scale ∧
      ((mouseMove s 0 vx).current j).translation = (s.poses left_pose j).translation) ∧
    (∀ j : Fin 7,
      ((mouseMove s vx vx).current j).color = (s.poses right_pose j).color ∧
      ((mouseMove s vx vx).current j).rotation = (s.poses right_pose j).rotation ∧
      ((mouseMove s vx vx).current j).scale = (s.poses right_pose j).scale ∧
      ((mouseMove s vx vx).current j).translation = (s.poses right_pose j).translation) := by
  have hf0 : normF 0 vx = 0 := by simp [normF]
  have hf1 : normF vx vx = 1 :=
    div_self (by exact_mod_cast hvx)
  constructor
  · intro j
    refine ⟨?_, ?_, ?_, ?_⟩ <;>
      simp only [mouseMove, hf0, sub_zero, mulVS_one, mulVS_zero, addV_zeroV,
        mulV2_one, mulV2_zero, addP_zero, mul_one, mul_zero, add_zero]
  · intro j
    refine ⟨?_, ?_, ?_, ?_⟩ <;>
      simp only [mouseMove, hf1, sub_self, mulVS_one, mulVS_zero, zeroV_addV,
        mulV2_one, mulV2_zero, zero_addP, mul_one, mul_zero, zero_add]

/-- Witness for C4 at a concrete input: with the authored pose table and an
800-pixel viewport, pointer x = 0 reproduces the left pose rotation of
joint 1 and pointer x = 800 reproduces the right pose rotation. -/
theorem blend_endpoints_witness :
    ((mouseMove initState 0 800).current 1).rotation =
      (initState.poses left_pose 1).rotation ∧
    ((mouseMove initState 800 800).current 1).rotation =
      (initState.poses right_pose 1).rotation := by
  have h := blend_endpoints initState 800 (by decide) (by decide)
  exact ⟨(h.1 1).2.1, (h.2 1).2.1⟩


/-- C9: mouseMove writes only the separate current pose instance: every
field of every joint of every named pose in the static table poses[] is
unchanged by the blend. -/
theorem mouseMove_preserves_named_poses (s : DemoState) (x vx : ℤ)
    (p : Fin 3) (j : Fin 7) :
    ((mouseMove s x vx).poses p j).parent = (s.poses p j).parent ∧
    ((mouseMove s x vx).poses p j).color = (s.poses p j).color ∧
    ((mouseMove s x vx).poses p j).translation = (s.poses p j).translation ∧
    ((mouseMove s x vx).poses p j).rotation = (s.poses p j).rotation ∧
    ((mouseMove s x vx).poses p j).scale = (s.poses p j).scale :=
  ⟨rfl, rfl, rfl, rfl, rfl⟩

/-- Counterexample to C7: immediately after startup initialization
(current_pose = poses[0], a verbatim struct copy, before any pointer-move
event) the current pose's joint 1 has parent address 0, which resolves to
joint 0 of the named bind pose poses[0] and is not one of the current-pose
instance addresses 21..27. -/
theorem current_parent_at_startup_cex :
    (initState.current 1).parent = some 0 ∧
    jointAt initState 0 = some (initState.poses 0 0) ∧
    ¬(21 ≤ (0 : ℤ) ∧ (0 : ℤ) < 28) := by
  decide

/-- C7 amended: after every pointer-move event the rebasing in mouseMove
re-targets each non-root parent pointer of the current pose at the sibling
joint with the same index inside the current pose instance (addresses
21..27), preserving the source topology -- provided the source pose's
parents lie within poses[left_pose]; at startup, however, the verbatim copy
current_pose = poses[0] leaves the parent pointers aimed at poses[0]
(see the counterexample). -/
theorem mouseMove_rebases_parents (s : DemoState) (x vx : ℤ)
    (hsrc : sourceParentsInRange s) :
    ∀ j : Fin 7,
      ((s.poses left_pose j).parent = none →
        ((mouseMove s x vx).current j).parent = none) ∧
      (∀ a : ℤ, (s.poses left_pose j).parent = some a →
        ∃ k : Fin 7, a = 7 * ((left_pose : ℕ) : ℤ) + ((k : ℕ) : ℤ) ∧
          ((mouseMove s x vx).current j).parent = some (21 + ((k : ℕ) : ℤ)) ∧
          jointAt (mouseMove s x vx) (21 + ((k : ℕ) : ℤ)) =
            some ((mouseMove s x vx).current k)) := by
  intro j
  constructor
  · intro h
    simp [mouseMove, h]
  · intro a ha
    have hb := hsrc j
    rw [ha] at hb
    obtain ⟨hlo, hhi⟩ := hb
    refine ⟨⟨(a - 7 * ((left_pose : ℕ) : ℤ)).toNat, by omega⟩, by push_cast; omega, ?_, ?_⟩
    · simp only [mouseMove, ha]
      congr 1
      omega
    · rw [jointAt, dif_neg (by push_cast; omega), dif_pos (by push_cast; omega)]
      congr 1
      apply congrArg
      apply Fin.ext
      push_cast
      omega

/-- Witness for C7 amended at a concrete input: the authored pose table has
all left-pose (poses[2]) parents in range, and after a pointer-move event
the current joint 1's parent is rebased to address 21 + 0, joint 0 of the
current pose instance. -/
theorem mouseMove_rebases_parents_witness :
    ∃ k : Fin 7, (14 : ℤ) = 7 * ((left_pose : ℕ) : ℤ) + ((k : ℕ) : ℤ) ∧
      ((mouseMove initState 0 800).current 1).parent = some (21 + ((k : ℕ) : ℤ)) ∧
      jointAt (mouseMove initState 0 800) (21 + ((k : ℕ) : ℤ)) =
        some ((mouseMove initState 0 800).current k) :=
  ((mouseMove_rebases_parents initState 0 800 (by decide)) 1).2 14 (by decide)

/-- Counterexample to C8: the normalized position signal is not clamped;
a pointer x-coordinate of 1600 with an 800-pixel-wide viewport yields f = 2,
outside [0,1], and the blend really receives that weight (joint 1's rotation
becomes 135*(1-2) + 45*2 = -45, outside the [45,135] endpoint range). -/
theorem normF_not_clamped_cex :
    normF 1600 800 = 2 ∧ ¬(normF 1600 800 ≤ 1) ∧
    ((mouseMove initState 1600 800).current 1).rotation = -45 := by
  have hf : normF 1600 800 = 2 := by
    rw [normF]
    norm_num
  refine ⟨hf, by rw [hf]; norm_num, ?_⟩
  rw [show ((mouseMove initState 1600 800).current 1).rotation =
    (135 : ℚ) * (1 - normF 1600 800) + (45 : ℚ) * normF 1600 800 from rfl, hf]
  norm_num

/-- C8 amended: the signal supplied to the pose blend is
f = float(x) / viewport.x with no clamping; the right-hand pose receives
weight f and the left-hand pose weight 1 - f for every interpolated field,
and f lies in [0,1] whenever the pointer x-coordinate lies inside the
viewport (0 ≤ x ≤ viewport width, width positive). -/
theorem mouseMove_weights_spec (s : DemoState) (x vx : ℤ) (j : Fin 7) :
    (((mouseMove s x vx).current j).rotation =
      (s.poses left_pose j).rotation * (1 - normF x vx) +
        (s.poses right_pose j).rotation * normF x vx) ∧
    (((mouseMove s x vx).current j).scale =
      (s.poses left_pose j).scale * (1 - normF x vx) +
        (s.poses right_pose j).scale * normF x vx) ∧
    (((mouseMove s x vx).current j).color =
      mulVS (s.poses left_pose j).color (1 - normF x vx) +
        mulVS (s.poses right_pose j).color (normF x vx)) ∧
    (((mouseMove s x vx).current j).translation =
      mulV2 (s.poses left_pose j).translation (1 - normF x vx) +
        mulV2 (s.poses right_pose j).translation (normF x vx)) ∧
    (0 ≤ x → x ≤ vx → 0 < vx → 0 ≤ normF x vx ∧ normF x vx ≤ 1) := by
  refine ⟨rfl, rfl, rfl, rfl, fun h0 h1 h2 => ⟨?_, ?_⟩⟩
  · exact div_nonneg (by exact_mod_cast h0) (by exact_mod_cast h2.le)
  · rw [normF, div_le_one (by exact_mod_cast h2)]
    exact_mod_cast h1

/-- Witness for C8 amended at a concrete input: pointer at x = 400 in an
800-pixel viewport gives an in-range blend factor. -/
theorem mouseMove_weights_spec_witness :
    0 ≤ normF 400 800 ∧ normF 400 800 ≤ 1 :=
  (mouseMove_weights_spec initState 400 800 0).2.2.2.2 (by decide) (by decide) (by decide)

/-- C5 (code bug): the mesh authored by initMeshes violates the documented
weight-sum invariant of skeletal_mesh.h: vertex 1 (also 2 and 16) has
joint weights 0.6 + 0.1 + 0.1 = 0.8, not 1.0.  The index half of the claim
does hold: every authored vertex's three joint indices are below the joint
count 7. -/
theorem authored_vertex_weight_sum_violation :
    (meshVertices[1]?).map weightSum = some (4/5) ∧ ((4 : ℚ)/5 ≠ 1) ∧
    ((meshVertices.drop 1).all fun v =>
      v.joint_indices 0 < 7 && v.joint_indices 1 < 7 && v.joint_indices 2 < 7) = true := by
  refine ⟨?_, by norm_num, by decide⟩
  show some ((0.6 : ℚ) + 0.1 + 0.1) = some (4/5)
  norm_num

/-- C10: every triangle index authored by initMeshes lies in
[1, number of vertices), so each one is a valid position in the vertex
sequence and the uninitialized placeholder vertex at index 0 is never
referenced by any triangle. -/
theorem triangle_indices_in_range :
    ∀ i ∈ meshIndices, 1 ≤ i ∧ i < meshVertices.length := by
  decide

/-- Witness for C10 at a concrete input: the first authored triangle index
is a valid non-placeholder position in the 43-entry vertex sequence. -/
theorem triangle_indices_in_range_witness :
    1 ≤ 1 ∧ 1 < meshVertices.length :=
  triangle_indices_in_range 1 (by decide)

/-- Counterexample to C6: with a bind pose whose root joint has scale 0,
the joint's model transform is singular (glm determinant 0), yet the
bind-pose inverse construction of initGL does not fail or abort: it runs to
completion and silently stores a matrix that is not an inverse. -/
theorem bindInverse_singular_cex :
    glmDet (getJointTransformD trigSample singularState (singularState.poses 0 0)) = 0 ∧
    initBindInverses trigSample singularState 0 *
      getJointTransformD trigSample singularState (singularState.poses 0 0) ≠ 1 := by
  have hM : getJointTransformD trigSample singularState (singularState.poses 0 0) =
      (⟨0, 0, 0, 0, 0, 0, 0, 0, 0, 0, 0, 0, 0, 0, 0, 1⟩ : Mat4) := by
    show matMul (translateM (0, 0)) (scaleM 0) = _
    simp only [matMul, translateM, scaleM, Mat4.mk.injEq]
    norm_num
  constructor
  · rw [hM]
    simp only [glmDet, glmRawInverse]
    norm_num
  · rw [show initBindInverses trigSample singularState 0 =
      glmInverse (getJointTransformD trigSample singularState
        (singularState.poses 0 0)) from rfl, hM]
    simp only [glmInverse, glmDet, glmRawInverse, smulM, mat_mul_def, matMul,
      mat_one_def, idM, Mat4.mk.injEq]
    norm_num

/-- C6 amended: the bind-pose inverse table is computed once at
initialization as glm::inverse(modelTransform(poses[0].joints[i])) for every
joint i; there is no singularity check and no abort path, and whenever the
joint's model transform is nonsingular the stored matrix is a genuine
two-sided inverse of it. -/
theorem initBindInverses_spec (trig : TrigFn) (s : DemoState) (i : Fin 7) :
    initBindInverses trig s i =
      glmInverse (getJointTransformD trig s (s.poses 0 i)) ∧
    (glmDet (getJointTransformD trig s (s.poses 0 i)) ≠ 0 →
      getJointTransformD trig s (s.poses 0 i) * initBindInverses trig s i = 1 ∧
      initBindInverses trig s i * getJointTransformD trig s (s.poses 0 i) = 1) :=
  ⟨rfl, fun h => ⟨mul_glmInverse _ h, glmInverse_mul _ h⟩⟩

/-- Witness for C6 amended at a concrete input: the authored bind pose's
root joint has a nonsingular (identity) model transform, and the stored
bind-pose inverse really inverts it. -/
theorem initBindInverses_spec_witness :
    getJointTransformD trigSample initState (initState.poses 0 0) *
      initBindInverses trigSample initState 0 = 1 :=
  ((initBindInverses_spec trigSample initState 0).2 (by
    rw [show getJointTransformD trigSample initState (initState.poses 0 0) =
      translateM (0, 0) from rfl]
    simp only [glmDet, glmRawInverse, translateM]
    norm_num)).1

end SkinningDemo
